import Mathlib

/-!
# Remote Fetch plugin — verification of the file-acquisition pipeline

Shallow embedding of the download pipeline of the Remote Fetch plugin
(`src/main.ts`, the `requestUrl`-based direct variant, and
`src/unnamed/part_000`, the `fetch`-based relay variant with the one-shot
304 cache retry), together with its leaf validators:

* `validateFilename`, `validateContentType`, `getExtensionFromMimeType`,
  `ensureFileExtension`, `sanitizeFilename`;
* the orchestrators `downloadFileDirect` (main.ts `downloadFile`) and
  `downloadFileFetch` (part_000 `downloadFile`), modelled as pure functions
  from the request data and the server's responses to the list of HTTP
  requests issued, the list of vault mutations performed, and the outcome.

JavaScript string operations (`lastIndexOf`, `substring`, `includes`,
`split`, `toLowerCase`, `parseInt`) are embedded over `List Char`.
`toLowerCase` is modelled character-wise on ASCII (A–Z ↦ a–z, everything
else fixed); no character outside A–Z lower-cases to an ASCII character in
JavaScript, so this is faithful for every comparison the plugin performs
(all comparison targets are ASCII).
-/

namespace RemoteFetch

/-- The upper-to-lower table of ASCII letters. -/
def upperToLower : List (Char × Char) :=
  [('A', 'a'), ('B', 'b'), ('C', 'c'), ('D', 'd'), ('E', 'e'), ('F', 'f'),
   ('G', 'g'), ('H', 'h'), ('I', 'i'), ('J', 'j'), ('K', 'k'), ('L', 'l'),
   ('M', 'm'), ('N', 'n'), ('O', 'o'), ('P', 'p'), ('Q', 'q'), ('R', 'r'),
   ('S', 's'), ('T', 't'), ('U', 'u'), ('V', 'v'), ('W', 'w'), ('X', 'x'),
   ('Y', 'y'), ('Z', 'z')]

/-- ASCII character lower-casing, as `String.prototype.toLowerCase` acts on
the ASCII range (all characters the plugin ever compares against; no
character outside A–Z lower-cases to an ASCII character in JavaScript). -/
def toLowerChar (c : Char) : Char :=
  match upperToLower.lookup c with
  | some l => l
  | none => c

/-- `s.toLowerCase()` on the underlying character list. -/
def lowerStr (s : String) : String := String.mk (s.data.map toLowerChar)

/-- `needle` is a prefix of `hay` (Boolean, over `Char` lists). -/
def isPrefixCh : List Char → List Char → Bool
  | [], _ => true
  | _ :: _, [] => false
  | a :: as, b :: bs => a = b && isPrefixCh as bs

/-- `hay.includes(needle)` (Boolean substring containment, `Char` lists). -/
def isInfixCh (needle : List Char) : List Char → Bool
  | [] => needle.isEmpty
  | c :: t => isPrefixCh needle (c :: t) || isInfixCh needle t

/-- `s.includes(sub)` for JavaScript strings. -/
def jsIncludes (s sub : String) : Bool := isInfixCh sub.data s.data

/-- Index of the last occurrence of a character, `none` when absent. -/
def lastIdx : List Char → Char → Option Nat
  | [], _ => none
  | c :: cs, ch =>
    match lastIdx cs ch with
    | some i => some (i + 1)
    | none => if c = ch then some 0 else none

/-- `s.lastIndexOf(c)` for a one-character search string: index of the last
occurrence, `-1` when absent. -/
def jsLastIndexOfChar (l : List Char) (ch : Char) : Int :=
  match lastIdx l ch with
  | some i => (i : Int)
  | none => -1

/-- `s.substring(i)`: JavaScript clamps a negative start index to `0`. -/
def jsSubstringFrom (s : String) (i : Int) : String :=
  String.mk (s.data.drop i.toNat)

/-- `s.substring(0, i)`: JavaScript clamps a negative end index to `0`. -/
def jsSubstringTo (s : String) (i : Int) : String :=
  String.mk (s.data.take i.toNat)

/-- `s.split("/")` on the underlying character list. -/
def splitOnSlash : List Char → List (List Char)
  | [] => [[]]
  | c :: cs =>
    let r := splitOnSlash cs
    if c = '/' then [] :: r
    else
      match r with
      | h :: t => (c :: h) :: t
      | [] => [[c]]

/-- `targetPath.split("/").pop() || ""`: the last path segment. -/
def lastSegment (s : String) : String :=
  String.mk ((splitOnSlash s.data).getLastD [])

/-- Leading decimal digits of a character list, `none` when there are none
(`parseInt` returns `NaN` then). -/
def parseDigits (l : List Char) : Option Nat :=
  let ds := l.takeWhile Char.isDigit
  if ds.isEmpty then none
  else some (ds.foldl (fun a c => a * 10 + (c.toNat - 48)) 0)

/-- `parseInt(s)` (base 10): skip leading whitespace, optional sign, then
decimal digits; `none` models `NaN`. -/
def jsParseInt (s : String) : Option Int :=
  let l := s.data.dropWhile fun c => c = ' ' || c = '\t' || c = '\n' || c = '\r'
  match l with
  | '-' :: rest => (parseDigits rest).map fun n => -(n : Int)
  | '+' :: rest => (parseDigits rest).map fun n => (n : Int)
  | rest => (parseDigits rest).map fun n => (n : Int)

/-! ## Safety constants (src/main.ts lines 22–54, identical in part_000) -/

/-- `MAX_FILE_SIZE = 20 * 1024 * 1024` (20 MiB). -/
def MAX_FILE_SIZE : Nat := 20 * 1024 * 1024

/-- `BLOCKED_EXTENSIONS`. -/
def BLOCKED_EXTENSIONS : List String :=
  [".exe", ".bat", ".cmd", ".scr", ".com", ".pif", ".vbs", ".js", ".jar",
   ".app", ".deb", ".dmg", ".pkg", ".msi"]

/-- `ALLOWED_CONTENT_TYPES`. -/
def ALLOWED_CONTENT_TYPES : List String :=
  ["application/pdf", "image/", "text/", "application/json",
   "application/zip", "application/x-zip-compressed", "application/msword",
   "application/vnd.openxmlformats-officedocument", "application/vnd.ms-excel",
   "video/", "audio/", "application/octet-stream"]

/-! ## Leaf validators and helpers -/

/-- `validateFilename` (src/main.ts lines 323–326):
`ext = filename.toLowerCase().substring(filename.lastIndexOf("."))`,
accept iff `ext` is not in the blocklist.  Character-wise lower-casing
preserves positions, so taking `lastIndexOf` on the original string and the
substring of the lower-cased one is the composition below. -/
def validateFilename (filename : String) : Bool :=
  let ext := jsSubstringFrom (lowerStr filename)
      (jsLastIndexOfChar filename.data '.')
  !(BLOCKED_EXTENSIONS.contains ext)

/-- `validateContentType` (src/main.ts lines 333–340): `null` — and, by
JavaScript falsiness, the empty string — is accepted; otherwise accept iff
the lower-cased type contains some allowlist entry as a substring. -/
def validateContentType (contentType : Option String) : Bool :=
  match contentType with
  | none => true
  | some ct =>
    if ct = "" then true
    else ALLOWED_CONTENT_TYPES.any fun allowed => jsIncludes (lowerStr ct) allowed

/-- The `mimeMap` lookup table of `getExtensionFromMimeType`
(src/main.ts lines 246–270). -/
def mimeMap : List (String × String) :=
  [("application/pdf", "pdf"), ("image/jpeg", "jpg"), ("image/png", "png"),
   ("image/gif", "gif"), ("image/svg+xml", "svg"), ("text/plain", "txt"),
   ("text/markdown", "md"), ("application/json", "json"),
   ("application/zip", "zip"), ("application/x-zip-compressed", "zip"),
   ("application/msword", "doc"),
   ("application/vnd.openxmlformats-officedocument.wordprocessingml.document", "docx"),
   ("application/vnd.ms-excel", "xls"),
   ("application/vnd.openxmlformats-officedocument.spreadsheetml.sheet", "xlsx"),
   ("video/mp4", "mp4"), ("audio/mpeg", "mp3"), ("audio/wav", "wav")]

/-- `getExtensionFromMimeType`: `mimeMap[mimeType] || "bin"` — an exact
key lookup with the `"bin"` sentinel for unknown types. -/
def getExtensionFromMimeType (mimeType : String) : String :=
  match mimeMap.lookup mimeType with
  | some e => e
  | none => "bin"

/-- The `hasExtension` test of `ensureFileExtension` (src/main.ts lines
228–229): `path.includes(".") && path.lastIndexOf(".") > path.lastIndexOf("/")`. -/
def hasExtension (path : String) : Bool :=
  path.data.contains '.' &&
    jsLastIndexOfChar path.data '.' > jsLastIndexOfChar path.data '/'

/-- `ensureFileExtension` (src/main.ts lines 224–239).  The `contentType`
guard is JavaScript truthiness, so `null` and `""` both leave the path
unchanged. -/
def ensureFileExtension (path : String) (contentType : Option String) : String :=
  if hasExtension path then path
  else
    match contentType with
    | none => path
    | some ct =>
      if ct = "" then path
      else
        let extension := getExtensionFromMimeType ct
        if extension ≠ "bin" then path ++ "." ++ extension else path

/-- The characters replaced by `sanitizeFilename`: `[\\/:*?"<>|]`. -/
def illegalChars : List Char := ['\\', '/', ':', '*', '?', '"', '<', '>', '|']

/-- `sanitizeFilename` (src/main.ts lines 300–302): replace every
occurrence of `\\ / : * ? " < > |` with `_`. -/
def sanitizeFilename (filename : String) : String :=
  String.mk (filename.data.map fun c => if illegalChars.contains c then '_' else c)

/-! ## Response model, outcomes, vault mutations, request headers -/

/-- One HTTP response as the orchestrator observes it: status code, the
`content-type` and `content-length` headers (absent headers are `none`),
and the body bytes. -/
structure HttpResponse where
  status : Nat
  contentType : Option String
  contentLength : Option String
  body : List Nat
  deriving DecidableEq, Repr

/-- `response.ok` of the fetch API: status in the inclusive range 200–299. -/
def respOk (r : HttpResponse) : Bool := 200 ≤ r.status && r.status ≤ 299

/-- `validateFileSize` (src/main.ts lines 119–130 inline, part_000 lines
423–431): with a truthy `content-length` header parsing to a number above
`MAX_FILE_SIZE` the check fails; an absent or empty header
passes, as does a non-numeric one (`NaN > MAX_FILE_SIZE` is false). -/
def sizeHeaderTooBig (r : HttpResponse) : Bool :=
  match r.contentLength with
  | none => false
  | some s =>
    if s = "" then false
    else
      match jsParseInt s with
      | some n => n > (MAX_FILE_SIZE : Int)
      | none => false

/-- The HTML-redirect test: `contentType && contentType.includes("text/html")`
(src/main.ts line 141, part_000 lines 218–221). -/
def ctIncludesHtml (ct : Option String) : Bool :=
  match ct with
  | none => false
  | some s => if s = "" then false else jsIncludes s "text/html"

/-- `response.headers["content-type"] || null` (src/main.ts line 133):
JavaScript `||` turns an empty string into `null`. -/
def jsOrNull (o : Option String) : Option String :=
  match o with
  | none => none
  | some s => if s = "" then none else some s

/-- The failure kinds of the pipeline, one per `throw` site of
`downloadFile`; the retry-path status failure (`HTTP error on retry!`)
carries its own constructor because its message differs. -/
inductive DlError
  | invalidUrl
  | blockedFileType
  | httpError (status : Nat)
  | httpErrorRetry (status : Nat)
  | oversizedPayload
  | emptyPayload
  | disallowedContentType
  | htmlRedirectSuspected
  deriving DecidableEq, Repr

/-- Outcome of one pipeline run. -/
inductive DlOutcome
  | success (finalPath : String)
  | failure (err : DlError)
  deriving DecidableEq, Repr

/-- Vault mutations the orchestrator can perform, in order. -/
inductive VaultOp
  | createFolder (path : String)
  | createBinary (path : String) (bytes : List Nat)
  deriving DecidableEq, Repr

/-- The request headers the orchestrator sets (absent headers are `none`). -/
structure ReqHeaders where
  accept : Option String
  userAgent : Option String
  cacheControl : Option String
  pragma : Option String
  expires : Option String
  ifNoneMatch : Option String
  ifModifiedSince : Option String
  deriving DecidableEq, Repr

/-- Headers of the first fetch in part_000 (lines 93–112): set only when
the CORS proxy is enabled, otherwise `fetchOptions = {}`. -/
def initialHeaders (useProxy : Bool) : ReqHeaders :=
  if useProxy then
    { accept := some "*/*", userAgent := some "Obsidian Remote Fetch Plugin",
      cacheControl := some "no-cache", pragma := some "no-cache",
      expires := none, ifNoneMatch := none, ifModifiedSince := none }
  else
    { accept := none, userAgent := none, cacheControl := none, pragma := none,
      expires := none, ifNoneMatch := none, ifModifiedSince := none }

/-- Hardened anti-cache headers of the one-shot 304 retry (part_000 lines
147–157): the initial headers overridden with
`Cache-Control: no-cache, no-store, must-revalidate`, `Pragma: no-cache`,
`Expires: 0`, and cleared `If-None-Match` / `If-Modified-Since`. -/
def retryHeaders (useProxy : Bool) : ReqHeaders :=
  { initialHeaders useProxy with
    cacheControl := some "no-cache, no-store, must-revalidate",
    pragma := some "no-cache", expires := some "0",
    ifNoneMatch := some "", ifModifiedSince := some "" }

/-- `finalPath.substring(0, finalPath.lastIndexOf("/"))`: the containing
folder, `""` when the path has no `/`. -/
def folderPathOf (finalPath : String) : String :=
  jsSubstringTo finalPath (jsLastIndexOfChar finalPath.data '/')

/-- The write tail shared by every success path (src/main.ts lines
168–180, part_000 lines 198–212 and 250–262): create the containing folder
when it is truthy (non-empty), then create the binary file. -/
def writeOps (finalPath : String) (bytes : List Nat) : List VaultOp :=
  (if folderPathOf finalPath ≠ "" then [VaultOp.createFolder (folderPathOf finalPath)]
   else []) ++ [VaultOp.createBinary finalPath bytes]

/-! ## The orchestrators -/

/-- The content gates and write tail shared by the success paths: the
HTML-redirect check (skipped on the 304-retry path, which passes
`checkHtml = false`), the empty-body check, the actual-size re-check, then
the extension fix-up and the write (src/main.ts lines 140–182, part_000
lines 176–213 and 217–264). -/
def bodyTail (checkHtml : Bool) (targetPath : String)
    (contentType : Option String) (body : List Nat) :
    List VaultOp × DlOutcome :=
  if checkHtml = true ∧ ctIncludesHtml contentType = true then
    ([], .failure .htmlRedirectSuspected)
  else if body.length = 0 then ([], .failure .emptyPayload)
  else if body.length > MAX_FILE_SIZE then ([], .failure .oversizedPayload)
  else
    let finalPath := ensureFileExtension targetPath contentType
    (writeOps finalPath body, .success finalPath)

/-- `downloadFile` of src/main.ts (lines 89–216), the `requestUrl` direct
variant.  `urlValid` stands for the verdict of `validateUrl` (WHATWG URL
parsing is not embedded; the validator is a leaf consulted once).  Returns
the vault mutations performed and the outcome. -/
def downloadFileDirect (urlValid : Bool) (targetPath : String)
    (resp : HttpResponse) : List VaultOp × DlOutcome :=
  if urlValid = false then ([], .failure .invalidUrl)
  else if validateFilename (lastSegment targetPath) = false then
    ([], .failure .blockedFileType)
  else if resp.status ≠ 200 then ([], .failure (.httpError resp.status))
  else if sizeHeaderTooBig resp = true then ([], .failure .oversizedPayload)
  else if validateContentType (jsOrNull resp.contentType) = false then
    ([], .failure .disallowedContentType)
  else bodyTail true targetPath (jsOrNull resp.contentType) resp.body

/-- The 304-retry branch of part_000's `downloadFile` (lines 141–215):
status, size-header and allowlist checks on the fresh response, then the
write tail.  The retried body is not subject to the HTML-redirect check
(`checkHtml = false`): that check sits after this branch's early return. -/
def fetch304Retry (targetPath : String) (freshResp : HttpResponse) :
    List VaultOp × DlOutcome :=
  if respOk freshResp = false then
    ([], .failure (.httpErrorRetry freshResp.status))
  else if sizeHeaderTooBig freshResp = true then
    ([], .failure .oversizedPayload)
  else if validateContentType freshResp.contentType = false then
    ([], .failure .disallowedContentType)
  else bodyTail false targetPath freshResp.contentType freshResp.body

/-- `downloadFile` of src/unnamed/part_000 (lines 78–294), the fetch-based
variant with the one-shot 304 cache retry.  `resp` is the server's answer
to the first request, `freshResp` its answer to the hardened retry (used
only when the first status is 304).  Returns the requests issued, the
vault mutations performed, and the outcome. -/
def downloadFileFetch (useProxy urlValid : Bool) (targetPath : String)
    (resp freshResp : HttpResponse) :
    List ReqHeaders × List VaultOp × DlOutcome :=
  if urlValid = false then ([], [], .failure .invalidUrl)
  else if validateFilename (lastSegment targetPath) = false then
    ([], [], .failure .blockedFileType)
  else if respOk resp = false ∧ resp.status ≠ 304 then
    ([initialHeaders useProxy], [], .failure (.httpError resp.status))
  else if sizeHeaderTooBig resp = true then
    ([initialHeaders useProxy], [], .failure .oversizedPayload)
  else if validateContentType resp.contentType = false then
    ([initialHeaders useProxy], [], .failure .disallowedContentType)
  else if resp.status = 304 then
    ([initialHeaders useProxy, retryHeaders useProxy],
     (fetch304Retry targetPath freshResp).1,
     (fetch304Retry targetPath freshResp).2)
  else
    ([initialHeaders useProxy],
     (bodyTail true targetPath resp.contentType resp.body).1,
     (bodyTail true targetPath resp.contentType resp.body).2)

/-! ## Helper lemmas about the string primitives -/

theorem isPrefixCh_iff (n h : List Char) :
    isPrefixCh n h = true ↔ ∃ t, h = n ++ t := by
  induction n generalizing h with
  | nil => simp [isPrefixCh]
  | cons a as ih =>
    cases h with
    | nil => simp [isPrefixCh]
    | cons b bs =>
      simp only [isPrefixCh, Bool.and_eq_true, decide_eq_true_eq, ih,
        List.cons_append, List.cons.injEq]
      constructor
      · rintro ⟨rfl, t, rfl⟩; exact ⟨t, rfl, rfl⟩
      · rintro ⟨t, rfl, rfl⟩; exact ⟨rfl, t, rfl⟩

theorem isInfixCh_iff (n h : List Char) :
    isInfixCh n h = true ↔ ∃ a b, h = a ++ n ++ b := by
  induction h with
  | nil =>
    cases n with
    | nil => simp [isInfixCh]
    | cons x xs => simp [isInfixCh]
  | cons c t ih =>
    simp only [isInfixCh, Bool.or_eq_true, isPrefixCh_iff, ih]
    constructor
    · rintro (⟨tt, htt⟩ | ⟨a, b, hab⟩)
      · exact ⟨[], tt, by simpa using htt⟩
      · exact ⟨c :: a, b, by simp [hab]⟩
    · rintro ⟨a, b, hab⟩
      cases a with
      | nil => exact Or.inl ⟨b, by simpa using hab⟩
      | cons x xs =>
        simp only [List.cons_append, List.cons.injEq] at hab
        exact Or.inr ⟨xs, b, hab.2⟩

theorem lastIdx_eq_none_iff (l : List Char) (ch : Char) :
    lastIdx l ch = none ↔ ch ∉ l := by
  induction l with
  | nil => simp [lastIdx]
  | cons c cs ih =>
    simp only [lastIdx, List.mem_cons]
    cases hcs : lastIdx cs ch with
    | some i => simp [← ih, hcs]
    | none =>
      have hmem : ch ∉ cs := ih.mp hcs
      by_cases hc : c = ch
      · subst hc
        simp
      · simp [if_neg hc, hmem]
        exact fun h => hc h.symm

theorem lastIdx_isSome_iff (l : List Char) (ch : Char) :
    (lastIdx l ch).isSome = true ↔ ch ∈ l := by
  cases hl : lastIdx l ch with
  | some i =>
    simp only [Option.isSome_some, true_iff]
    by_contra hmem
    rw [(lastIdx_eq_none_iff l ch).mpr hmem] at hl
    exact Option.noConfusion hl
  | none => simpa using (lastIdx_eq_none_iff l ch).mp hl

theorem splitOnSlash_ne_nil (l : List Char) : splitOnSlash l ≠ [] := by
  cases l with
  | nil => simp [splitOnSlash]
  | cons c cs =>
    simp only [splitOnSlash]
    by_cases hc : c = '/'
    · simp [hc]
    · simp only [if_neg hc]
      cases splitOnSlash cs <;> simp

theorem splitOnSlash_eq_singleton_iff (l m : List Char) :
    splitOnSlash l = [m] ↔ (l = m ∧ '/' ∉ l) := by
  induction l generalizing m with
  | nil => simp [splitOnSlash, eq_comm]
  | cons c cs ih =>
    simp only [splitOnSlash, List.mem_cons]
    by_cases hc : c = '/'
    · subst hc
      simp only [if_pos rfl]
      constructor
      · intro h
        exact absurd (List.cons.inj h).2 (splitOnSlash_ne_nil cs)
      · rintro ⟨-, h⟩
        exact absurd (Or.inl trivial) h
    · simp only [if_neg hc]
      obtain ⟨h0, t0, hr⟩ := List.exists_cons_of_ne_nil (splitOnSlash_ne_nil cs)
      rw [hr]
      constructor
      · intro h
        obtain ⟨h1, h2⟩ := List.cons.inj h
        subst h2
        obtain ⟨rfl, hns⟩ := (ih h0).mp hr
        constructor
        · rw [← h1]
        · intro hmem
          rcases hmem with h | h
          · exact hc h.symm
          · exact hns h
      · rintro ⟨rfl, hmem⟩
        have hns : '/' ∉ cs := fun h => hmem (Or.inr h)
        have := (ih cs).mpr ⟨rfl, hns⟩
        rw [this] at hr
        obtain ⟨rfl, rfl⟩ := List.cons.inj hr
        rfl

/-- The "dot after the last slash" side condition of `hasExtension`,
expressed on the last-occurrence indices. -/
def dotAfterSlash (l : List Char) : Prop :=
  match lastIdx l '.', lastIdx l '/' with
  | some i, some j => i > j
  | some _, none => True
  | none, _ => False

theorem jsGt_iff_dotAfterSlash (l : List Char) :
    jsLastIndexOfChar l '.' > jsLastIndexOfChar l '/' ↔ dotAfterSlash l := by
  unfold jsLastIndexOfChar dotAfterSlash
  cases lastIdx l '.' <;> cases lastIdx l '/' <;> simp <;> omega

theorem dotAfterSlash_slash_cons (cs : List Char) :
    dotAfterSlash ('/' :: cs) ↔ dotAfterSlash cs := by
  cases hd : lastIdx cs '.' <;> cases hs : lastIdx cs '/' <;>
    simp [dotAfterSlash, lastIdx, hd, hs]

theorem dot_in_lastSeg (l : List Char) :
    '.' ∈ (splitOnSlash l).getLastD [] ↔ ('.' ∈ l ∧ dotAfterSlash l) := by
  induction l with
  | nil => simp [splitOnSlash, dotAfterSlash, lastIdx]
  | cons c cs ih =>
    obtain ⟨h0, t0, hr⟩ := List.exists_cons_of_ne_nil (splitOnSlash_ne_nil cs)
    by_cases hc : c = '/'
    · subst hc
      have e1 : splitOnSlash ('/' :: cs) = [] :: splitOnSlash cs := by
        simp [splitOnSlash]
      rw [e1, List.getLastD_cons, ih, dotAfterSlash_slash_cons]
      have hmem : ('.' ∈ '/' :: cs) ↔ '.' ∈ cs := by
        simp [List.mem_cons]
      rw [hmem]
    · have e1 : splitOnSlash (c :: cs) = (c :: h0) :: t0 := by
        simp only [splitOnSlash, if_neg hc, hr]
      rw [e1]
      cases t0 with
      | nil =>
        obtain ⟨rfl, hns⟩ := (splitOnSlash_eq_singleton_iff cs h0).mp hr
        rw [List.getLastD_cons, List.getLastD_nil]
        have hslash : lastIdx (c :: cs) '/' = none := by
          rw [lastIdx_eq_none_iff, List.mem_cons]
          rintro (h | h)
          · exact hc h.symm
          · exact hns h
        constructor
        · intro h
          refine ⟨h, ?_⟩
          have hd : (lastIdx (c :: cs) '.').isSome = true :=
            (lastIdx_isSome_iff _ _).mpr h
          unfold dotAfterSlash
          rw [hslash]
          cases he : lastIdx (c :: cs) '.' with
          | some i => simp
          | none => rw [he] at hd; simp at hd
        · exact fun h => h.1
      | cons t1 ts =>
        have hlast : ((c :: h0) :: t1 :: ts).getLastD [] =
            (splitOnSlash cs).getLastD [] := by
          rw [hr]
          simp only [List.getLastD_cons]
        rw [hlast, ih]
        have hsl : '/' ∈ cs := by
          by_contra hns
          have h1 := (splitOnSlash_eq_singleton_iff cs cs).mpr ⟨rfl, hns⟩
          rw [h1] at hr
          exact List.noConfusion (List.cons.inj hr).2
        obtain ⟨j, hj⟩ : ∃ j, lastIdx cs '/' = some j := by
          cases hs : lastIdx cs '/' with
          | some j => exact ⟨j, rfl⟩
          | none => exact absurd hsl ((lastIdx_eq_none_iff _ _).mp hs)
        have e_sl : lastIdx (c :: cs) '/' = some (j + 1) := by
          simp [lastIdx, hj]
        cases hd : lastIdx cs '.' with
        | some i =>
          have hdmem : '.' ∈ cs := by
            have hsome : (lastIdx cs '.').isSome = true := by rw [hd]; rfl
            exact (lastIdx_isSome_iff _ _).mp hsome
          have e_dot : lastIdx (c :: cs) '.' = some (i + 1) := by
            simp [lastIdx, hd]
          have iff1 : dotAfterSlash (c :: cs) ↔ i + 1 > j + 1 := by
            unfold dotAfterSlash
            rw [e_dot, e_sl]
          have iff2 : dotAfterSlash cs ↔ i > j := by
            unfold dotAfterSlash
            rw [hd, hj]
          rw [iff1, iff2]
          constructor
          · rintro ⟨h1, h2⟩
            exact ⟨List.mem_cons_of_mem c h1, by omega⟩
          · rintro ⟨-, h2⟩
            exact ⟨hdmem, by omega⟩
        | none =>
          have hdnot : '.' ∉ cs := (lastIdx_eq_none_iff _ _).mp hd
          by_cases hcd : c = '.'
          · subst hcd
            have e_dot : lastIdx ('.' :: cs) '.' = some 0 := by
              simp [lastIdx, hd]
            have hnds : ¬dotAfterSlash ('.' :: cs) := by
              unfold dotAfterSlash
              rw [e_dot, e_sl]
              omega
            constructor
            · rintro ⟨h1, -⟩
              exact absurd h1 hdnot
            · rintro ⟨-, h2⟩
              exact absurd h2 hnds
          · have e_dot : lastIdx (c :: cs) '.' = none := by
              simp [lastIdx, hd, hcd]
            have hnds : ¬dotAfterSlash (c :: cs) := by
              unfold dotAfterSlash
              rw [e_dot]
              exact id
            constructor
            · rintro ⟨h1, -⟩
              exact absurd h1 hdnot
            · rintro ⟨-, h2⟩
              exact absurd h2 hnds

theorem hasExtension_iff_lastSegment (path : String) :
    hasExtension path = true ↔ '.' ∈ (lastSegment path).data := by
  have hseg : (lastSegment path).data = (splitOnSlash path.data).getLastD [] := rfl
  rw [hseg, dot_in_lastSeg]
  unfold hasExtension
  rw [Bool.and_eq_true, decide_eq_true_eq, jsGt_iff_dotAfterSlash]
  constructor
  · rintro ⟨h1, h2⟩
    exact ⟨List.elem_iff.mp h1, h2⟩
  · rintro ⟨h1, h2⟩
    exact ⟨List.elem_iff.mpr h1, h2⟩

theorem lookup_value_mem {α β : Type} [BEq α] (l : List (α × β)) (a : α)
    (v : β) (h : l.lookup a = some v) : v ∈ l.map Prod.snd := by
  induction l with
  | nil => simp [List.lookup] at h
  | cons p t ih =>
    obtain ⟨k, b⟩ := p
    rw [List.lookup] at h
    cases hab : a == k with
    | true =>
      rw [hab] at h
      simp only [Option.some.injEq] at h
      subst h
      exact List.mem_cons_self _ _
    | false =>
      rw [hab] at h
      exact List.mem_cons_of_mem _ (ih h)

theorem toLowerChar_eq_dot {c : Char} (h : toLowerChar c = '.') : c = '.' := by
  unfold toLowerChar at h
  cases hl : upperToLower.lookup c with
  | none => rw [hl] at h; exact h
  | some v =>
    rw [hl] at h
    subst h
    exact absurd (lookup_value_mem _ _ _ hl) (by decide)

set_option maxHeartbeats 2000000 in
theorem blocked_mem_has_dot : ∀ e ∈ BLOCKED_EXTENSIONS, '.' ∈ e.data := by
  decide

theorem isInfixCh_of_append (n m h : List Char)
    (hin : isInfixCh (n ++ m) h = true) : isInfixCh n h = true := by
  rw [isInfixCh_iff] at hin ⊢
  obtain ⟨a, b, hab⟩ := hin
  exact ⟨a, m ++ b, by rw [hab]; simp⟩

theorem isInfixCh_map_toLower (n h : List Char)
    (hfix : n.map toLowerChar = n)
    (hin : isInfixCh n h = true) :
    isInfixCh n (h.map toLowerChar) = true := by
  rw [isInfixCh_iff] at hin ⊢
  obtain ⟨a, b, hab⟩ := hin
  refine ⟨a.map toLowerChar, b.map toLowerChar, ?_⟩
  rw [hab]
  simp [hfix]

theorem ne_empty_of_isInfixCh_cons (c : Char) (n h : List Char)
    (hin : isInfixCh (c :: n) h = true) : h ≠ [] := by
  rw [isInfixCh_iff] at hin
  obtain ⟨a, b, hab⟩ := hin
  rw [hab]
  simp

set_option maxHeartbeats 2000000 in
theorem mimeMap_values_no_dot : ∀ x ∈ mimeMap.map Prod.snd, '.' ∉ x.data := by
  decide

set_option maxHeartbeats 2000000 in
theorem mimeMap_keys_no_semicolon : ∀ p ∈ mimeMap, ';' ∉ p.1.data := by
  decide

theorem lookup_none_of_semicolon (l : List (String × String))
    (hk : ∀ p ∈ l, ';' ∉ p.1.data) (s : String) (hs : ';' ∈ s.data) :
    l.lookup s = none := by
  induction l with
  | nil => rfl
  | cons p t ih =>
    obtain ⟨k, v⟩ := p
    rw [List.lookup]
    cases hab : s == k with
    | true =>
      have hsk : s = k := eq_of_beq hab
      subst hsk
      exact absurd hs (hk (s, v) (List.mem_cons_self _ _))
    | false => exact ih fun q hq => hk q (List.mem_cons_of_mem _ hq)

theorem getExtension_no_dot (s : String)
    (h : getExtensionFromMimeType s ≠ "bin") :
    '.' ∉ (getExtensionFromMimeType s).data := by
  cases hl : mimeMap.lookup s with
  | none =>
    exfalso
    apply h
    unfold getExtensionFromMimeType
    rw [hl]
  | some e =>
    have he : getExtensionFromMimeType s = e := by
      unfold getExtensionFromMimeType
      rw [hl]
    rw [he]
    exact mimeMap_values_no_dot e (lookup_value_mem _ _ _ hl)

theorem respOk_iff (r : HttpResponse) :
    respOk r = true ↔ (200 ≤ r.status ∧ r.status ≤ 299) := by
  unfold respOk
  simp [Bool.and_eq_true]

/-! ## Concrete response fixtures -/

/-- 200 OK, `application/pdf`, three bytes. -/
def respPdf : HttpResponse :=
  { status := 200, contentType := some "application/pdf",
    contentLength := none, body := [1, 2, 3] }

/-- 201 Created, otherwise as `respPdf`. -/
def resp201 : HttpResponse := { respPdf with status := 201 }

/-- 304 Not Modified, empty body, no headers. -/
def resp304 : HttpResponse :=
  { status := 304, contentType := none, contentLength := none, body := [] }

/-- 404 Not Found. -/
def resp404 : HttpResponse := { resp304 with status := 404 }

/-- 200 OK with an HTML content type and a two-byte body. -/
def respHtml : HttpResponse :=
  { status := 200, contentType := some "text/html",
    contentLength := none, body := [7, 7] }

/-- 200 OK with a disallowed content type and a ten-byte body. -/
def respMsDownload : HttpResponse :=
  { status := 200, contentType := some "application/x-msdownload",
    contentLength := none, body := [0, 1, 2, 3, 4, 5, 6, 7, 8, 9] }

/-- 200 OK declaring a 30 MiB `content-length` with a one-byte body. -/
def respBigHeader : HttpResponse :=
  { status := 200, contentType := some "application/pdf",
    contentLength := some "31457280", body := [1] }

/-! ## The claims -/

/-- C6: for every target path and declared content type, the final path is
either the target path unchanged, or the target path with exactly one `.`
plus the inferred extension appended; an extension is appended only when
the last segment of the target path lacks an extension and the resolver's
result is not the `"bin"` sentinel, and a path that already has an
extension is never modified. -/
theorem claim_c6 (path : String) (ct : Option String) :
    ('.' ∈ (lastSegment path).data → ensureFileExtension path ct = path) ∧
    (ensureFileExtension path ct = path ∨
      ∃ s e, ct = some s ∧ e = getExtensionFromMimeType s ∧ e ≠ "bin" ∧
        '.' ∉ (lastSegment path).data ∧ '.' ∉ e.data ∧
        ensureFileExtension path ct = path ++ "." ++ e) := by
  have hredS : ∀ s : String, ensureFileExtension path (some s) =
      (if hasExtension path then path
       else if s = "" then path
       else if getExtensionFromMimeType s ≠ "bin"
         then path ++ "." ++ getExtensionFromMimeType s
         else path) := fun s => rfl
  constructor
  · intro hdot
    unfold ensureFileExtension
    rw [if_pos ((hasExtension_iff_lastSegment path).mpr hdot)]
  · by_cases hext : hasExtension path = true
    · left
      unfold ensureFileExtension
      rw [if_pos hext]
    · have hnd : '.' ∉ (lastSegment path).data := fun hdot =>
        hext ((hasExtension_iff_lastSegment path).mpr hdot)
      cases ct with
      | none =>
        left
        unfold ensureFileExtension
        rw [if_neg hext]
      | some s =>
        rw [hredS s, if_neg hext]
        by_cases hse : s = ""
        · left
          rw [if_pos hse]
        · rw [if_neg hse]
          by_cases hbin : getExtensionFromMimeType s ≠ "bin"
          · right
            refine ⟨s, getExtensionFromMimeType s, rfl, rfl, hbin, hnd,
              getExtension_no_dot s hbin, ?_⟩
            rw [if_pos hbin]
          · left
            rw [if_neg hbin]

/-- C6 witness: a path with an extension is untouched; an extensionless
path gains the resolved extension. -/
theorem claim_c6_witness :
    ensureFileExtension "docs/report.pdf" (some "image/png") = "docs/report.pdf" :=
  (claim_c6 "docs/report.pdf" (some "image/png")).1 (by decide)

/-- C7: every filename whose lower-cased substring from the last `.` to
the end is in the executable blocklist is rejected by the Filename
Validator, and every filename containing no `.` at all is accepted. -/
theorem claim_c7 (f : String) :
    (jsSubstringFrom (lowerStr f) (jsLastIndexOfChar f.data '.') ∈
        BLOCKED_EXTENSIONS → validateFilename f = false) ∧
    ('.' ∉ f.data → validateFilename f = true) := by
  have hred : validateFilename f =
      !BLOCKED_EXTENSIONS.contains
        (jsSubstringFrom (lowerStr f) (jsLastIndexOfChar f.data '.')) := rfl
  constructor
  · intro hmem
    have hcon : BLOCKED_EXTENSIONS.contains
        (jsSubstringFrom (lowerStr f) (jsLastIndexOfChar f.data '.')) = true :=
      List.elem_eq_true_of_mem hmem
    rw [hred, hcon]
    rfl
  · intro hnd
    have h1 : lastIdx f.data '.' = none := (lastIdx_eq_none_iff _ _).mpr hnd
    have h2 : jsLastIndexOfChar f.data '.' = -1 := by
      unfold jsLastIndexOfChar
      rw [h1]
    rw [hred, h2, Bool.not_eq_true']
    cases hcb : BLOCKED_EXTENSIONS.contains
        (jsSubstringFrom (lowerStr f) (-1)) with
    | false => rfl
    | true =>
      exfalso
      have hmem : jsSubstringFrom (lowerStr f) (-1) ∈ BLOCKED_EXTENSIONS :=
        List.elem_iff.mp hcb
      have hdot := blocked_mem_has_dot _ hmem
      have hdata : (jsSubstringFrom (lowerStr f) (-1)).data =
          f.data.map toLowerChar := rfl
      rw [hdata] at hdot
      obtain ⟨c, hc, hceq⟩ := List.mem_map.mp hdot
      exact hnd (toLowerChar_eq_dot hceq ▸ hc)

/-- C7 witness: a blocklisted extension (case-insensitively) is rejected;
a dotless filename is accepted. -/
theorem claim_c7_witness :
    validateFilename "malware.ExE" = false ∧ validateFilename "README" = true :=
  ⟨(claim_c7 "malware.ExE").1 (by decide), (claim_c7 "README").2 (by decide)⟩

/-- C8 counterexample: the empty string is a declared content-type string
that contains no allowlist member, yet the validator returns true for it
(JavaScript treats `""` as falsy in the `if (!contentType)` guard). -/
theorem claim_c8_counterexample :
    validateContentType (some "") = true ∧
      (ALLOWED_CONTENT_TYPES.any fun allowed =>
        jsIncludes (lowerStr "") allowed) = false := by
  decide

/-- C8 (amended): the Content-Type Validator returns true for `null`/absent
and for the empty declared type (both falsy), and on every non-empty
declared type it returns true exactly when the lower-cased string contains
some member of the allowlist as a substring. -/
theorem claim_c8 (ct : String) (hne : ct ≠ "") :
    validateContentType none = true ∧
    validateContentType (some "") = true ∧
    (validateContentType (some ct) = true ↔
      ∃ allowed ∈ ALLOWED_CONTENT_TYPES,
        jsIncludes (lowerStr ct) allowed = true) := by
  refine ⟨rfl, rfl, ?_⟩
  have hred : validateContentType (some ct) =
      (if ct = "" then true
       else ALLOWED_CONTENT_TYPES.any fun allowed =>
         jsIncludes (lowerStr ct) allowed) := rfl
  rw [hred, if_neg hne]
  simp [List.any_eq_true]

/-- C8 witness: a concrete allowed type. -/
theorem claim_c8_witness :
    validateContentType (some "image/png") = true ↔
      ∃ allowed ∈ ALLOWED_CONTENT_TYPES,
        jsIncludes (lowerStr "image/png") allowed = true :=
  (claim_c8 "image/png" (by decide)).2.2

/-- C9: the Filename Sanitizer is idempotent — the replacement character
`_` is not itself in the replaced set, so a second pass changes nothing. -/
theorem claim_c9 (s : String) :
    sanitizeFilename (sanitizeFilename s) = sanitizeFilename s := by
  unfold sanitizeFilename
  apply congrArg String.mk
  rw [show (String.mk (s.data.map fun c =>
      if illegalChars.contains c then '_' else c)).data =
        s.data.map fun c => if illegalChars.contains c then '_' else c from rfl]
  rw [List.map_map]
  apply List.map_congr_left
  intro a _
  have humem : '_' ∉ illegalChars := by decide
  by_cases hc : a ∈ illegalChars
  · simp [hc, humem]
  · simp [hc]

/-- C10: the extension resolver matches the full content-type string
exactly against its table, so every declared type containing a `;`
parameter separator resolves to the `"bin"` sentinel and the final path is
left without an appended extension, even though the Content-Type Validator
accepts exactly such suffixed strings. -/
theorem claim_c10 (path s : String) (hs : ';' ∈ s.data) :
    getExtensionFromMimeType s = "bin" ∧
    ensureFileExtension path (some s) = path ∧
    validateContentType (some "application/pdf; charset=utf-8") = true ∧
    getExtensionFromMimeType "application/pdf; charset=utf-8" = "bin" ∧
    getExtensionFromMimeType "text/plain; charset=utf-8" = "bin" := by
  have hbin : getExtensionFromMimeType s = "bin" := by
    unfold getExtensionFromMimeType
    rw [lookup_none_of_semicolon mimeMap mimeMap_keys_no_semicolon s hs]
  refine ⟨hbin, ?_, by decide, by decide, by decide⟩
  have hse : s ≠ "" := by
    intro he
    subst he
    exact absurd hs (by decide)
  have hred : ensureFileExtension path (some s) =
      (if hasExtension path then path
       else if s = "" then path
       else if getExtensionFromMimeType s ≠ "bin"
         then path ++ "." ++ getExtensionFromMimeType s
         else path) := rfl
  rw [hred]
  by_cases hext : hasExtension path = true
  · rw [if_pos hext]
  · rw [if_neg hext, if_neg hse,
      if_neg (not_not_intro hbin)]

/-- C10 witness: a parameterised `text/plain` leaves the path untouched. -/
theorem claim_c10_witness :
    getExtensionFromMimeType "text/plain; charset=utf-8" = "bin" ∧
    ensureFileExtension "notes/readme" (some "text/plain; charset=utf-8") =
      "notes/readme" :=
  ⟨(claim_c10 "notes/readme" "text/plain; charset=utf-8" (by decide)).1,
   (claim_c10 "notes/readme" "text/plain; charset=utf-8" (by decide)).2.1⟩

/-! ### Structural lemmas about the two orchestrators -/

theorem bodyTail_html (tp : String) (ct : Option String) (b : List Nat)
    (hfire : ctIncludesHtml ct = true) :
    bodyTail true tp ct b = ([], .failure .htmlRedirectSuspected) := by
  unfold bodyTail
  rw [if_pos ⟨rfl, hfire⟩]

theorem bodyTail_ok (checkHtml : Bool) (tp : String) (ct : Option String)
    (b : List Nat) (hhtml : ¬(checkHtml = true ∧ ctIncludesHtml ct = true))
    (hne : b ≠ []) (hle : b.length ≤ MAX_FILE_SIZE) :
    bodyTail checkHtml tp ct b =
      (writeOps (ensureFileExtension tp ct) b,
       .success (ensureFileExtension tp ct)) := by
  unfold bodyTail
  rw [if_neg hhtml, if_neg (by simp [List.length_eq_zero, hne]),
    if_neg (by omega)]

theorem bodyTail_oversized (checkHtml : Bool) (tp : String)
    (ct : Option String) (b : List Nat)
    (hhtml : ¬(checkHtml = true ∧ ctIncludesHtml ct = true))
    (hbig : b.length > MAX_FILE_SIZE) :
    bodyTail checkHtml tp ct b = ([], .failure .oversizedPayload) := by
  unfold bodyTail
  rw [if_neg hhtml, if_neg (by omega), if_pos hbig]

theorem bodyTail_failure_no_ops (checkHtml : Bool) (tp : String)
    (ct : Option String) (b : List Nat) (e : DlError)
    (he : (bodyTail checkHtml tp ct b).2 = .failure e) :
    (bodyTail checkHtml tp ct b).1 = [] := by
  unfold bodyTail at he ⊢
  split_ifs at he ⊢ <;> simp_all

theorem bodyTail_success_ops (checkHtml : Bool) (tp : String)
    (ct : Option String) (b : List Nat) (p : String)
    (hp : (bodyTail checkHtml tp ct b).2 = .success p) :
    (bodyTail checkHtml tp ct b).1 = writeOps p b := by
  unfold bodyTail at hp ⊢
  split_ifs at hp ⊢ <;> simp_all

theorem bodyTail_no_httpError (checkHtml : Bool) (tp : String)
    (ct : Option String) (b : List Nat) (s : Nat) :
    (bodyTail checkHtml tp ct b).2 ≠ .failure (.httpError s) := by
  unfold bodyTail
  split_ifs <;> simp

theorem bodyTail_write_le (checkHtml : Bool) (tp : String)
    (ct : Option String) (b : List Nat) (p : String) (bb : List Nat)
    (hmem : VaultOp.createBinary p bb ∈ (bodyTail checkHtml tp ct b).1) :
    bb.length ≤ MAX_FILE_SIZE := by
  unfold bodyTail at hmem
  split_ifs at hmem with h1 h2 h3
  · exact absurd hmem (by simp)
  · exact absurd hmem (by simp)
  · exact absurd hmem (by simp)
  · rcases List.mem_append.mp hmem with hL | hR
    · by_cases hf : folderPathOf (ensureFileExtension tp ct) ≠ ""
      · rw [if_pos hf] at hL
        simp at hL
      · rw [if_neg hf] at hL
        simp at hL
    · have hb := List.mem_singleton.mp hR
      injection hb with hpq hbq
      subst hbq
      omega

theorem fetch304Retry_failure_no_ops (tp : String) (f : HttpResponse)
    (e : DlError) (he : (fetch304Retry tp f).2 = .failure e) :
    (fetch304Retry tp f).1 = [] := by
  unfold fetch304Retry at he ⊢
  split_ifs at he ⊢ <;>
    solve
    | simp_all
    | exact bodyTail_failure_no_ops false tp f.contentType f.body e he

theorem fetch304Retry_success_ops (tp : String) (f : HttpResponse)
    (p : String) (hp : (fetch304Retry tp f).2 = .success p) :
    (fetch304Retry tp f).1 = writeOps p f.body := by
  unfold fetch304Retry at hp ⊢
  split_ifs at hp ⊢ <;>
    solve
    | simp_all
    | exact bodyTail_success_ops false tp f.contentType f.body p hp

theorem fetch304Retry_no_httpError (tp : String) (f : HttpResponse)
    (s : Nat) : (fetch304Retry tp f).2 ≠ .failure (.httpError s) := by
  unfold fetch304Retry
  split_ifs <;>
    solve
    | simp
    | exact bodyTail_no_httpError false tp f.contentType f.body s

theorem downloadFileFetch_reqs_le_two (u v : Bool) (tp2 : String)
    (r f : HttpResponse) : (downloadFileFetch u v tp2 r f).1.length ≤ 2 := by
  unfold downloadFileFetch
  split_ifs <;> simp

theorem direct_failure_no_ops (urlValid : Bool) (tp : String)
    (resp : HttpResponse) (e : DlError)
    (he : (downloadFileDirect urlValid tp resp).2 = .failure e) :
    (downloadFileDirect urlValid tp resp).1 = [] := by
  unfold downloadFileDirect at he ⊢
  split_ifs at he ⊢ <;>
    solve
    | simp_all
    | exact bodyTail_failure_no_ops true tp (jsOrNull resp.contentType)
        resp.body e he

theorem direct_success_ops (urlValid : Bool) (tp : String)
    (resp : HttpResponse) (p : String)
    (hp : (downloadFileDirect urlValid tp resp).2 = .success p) :
    (downloadFileDirect urlValid tp resp).1 = writeOps p resp.body := by
  unfold downloadFileDirect at hp ⊢
  split_ifs at hp ⊢ <;>
    solve
    | simp_all
    | exact bodyTail_success_ops true tp (jsOrNull resp.contentType)
        resp.body p hp

theorem fetch_failure_no_ops (useProxy urlValid : Bool) (tp : String)
    (resp freshResp : HttpResponse) (e : DlError)
    (he : (downloadFileFetch useProxy urlValid tp resp freshResp).2.2 =
      .failure e) :
    (downloadFileFetch useProxy urlValid tp resp freshResp).2.1 = [] := by
  unfold downloadFileFetch at he ⊢
  split_ifs at he ⊢ <;>
    solve
    | simp_all
    | exact fetch304Retry_failure_no_ops tp freshResp e he
    | exact bodyTail_failure_no_ops true tp resp.contentType resp.body e he

theorem fetch_success_ops (useProxy urlValid : Bool) (tp : String)
    (resp freshResp : HttpResponse) (p : String)
    (hp : (downloadFileFetch useProxy urlValid tp resp freshResp).2.2 =
      .success p) :
    ∃ b, (b = resp.body ∨ b = freshResp.body) ∧
      (downloadFileFetch useProxy urlValid tp resp freshResp).2.1 =
        writeOps p b := by
  unfold downloadFileFetch at hp ⊢
  split_ifs at hp ⊢ <;>
    solve
    | simp_all
    | exact ⟨freshResp.body, Or.inr rfl,
        fetch304Retry_success_ops tp freshResp p hp⟩
    | exact ⟨resp.body, Or.inl rfl,
        bodyTail_success_ops true tp resp.contentType resp.body p hp⟩

theorem downloadFileFetch_status_fail (useProxy : Bool) (tp : String)
    (resp freshResp : HttpResponse)
    (hfn : validateFilename (lastSegment tp) = true)
    (hok : respOk resp = false) (h304 : resp.status ≠ 304) :
    downloadFileFetch useProxy true tp resp freshResp =
      ([initialHeaders useProxy], [], .failure (.httpError resp.status)) := by
  unfold downloadFileFetch
  rw [if_neg (by decide), if_neg (by simp [hfn]), if_pos ⟨hok, h304⟩]

theorem downloadFileFetch_no_httpError (useProxy urlValid : Bool)
    (tp : String) (resp freshResp : HttpResponse) (s : Nat)
    (hcond : ¬(respOk resp = false ∧ resp.status ≠ 304)) :
    (downloadFileFetch useProxy urlValid tp resp freshResp).2.2 ≠
      .failure (.httpError s) := by
  unfold downloadFileFetch
  split_ifs <;>
    solve
    | simp
    | simp_all
    | exact fetch304Retry_no_httpError tp freshResp s
    | exact bodyTail_no_httpError true tp resp.contentType resp.body s

theorem downloadFileFetch_to_retry (useProxy : Bool) (tp : String)
    (resp freshResp : HttpResponse)
    (hfn : validateFilename (lastSegment tp) = true)
    (h304 : resp.status = 304)
    (hsz : sizeHeaderTooBig resp = false)
    (hvc : validateContentType resp.contentType = true) :
    downloadFileFetch useProxy true tp resp freshResp =
      ([initialHeaders useProxy, retryHeaders useProxy],
       (fetch304Retry tp freshResp).1, (fetch304Retry tp freshResp).2) := by
  unfold downloadFileFetch
  rw [if_neg (by decide), if_neg (by simp [hfn]),
    if_neg (show ¬(respOk resp = false ∧ resp.status ≠ 304) from by
      simp [h304]),
    if_neg (by simp [hsz]), if_neg (by simp [hvc]), if_pos h304]

theorem downloadFileFetch_to_main (useProxy : Bool) (tp : String)
    (resp freshResp : HttpResponse)
    (hfn : validateFilename (lastSegment tp) = true)
    (hok : respOk resp = true) (h304 : resp.status ≠ 304)
    (hsz : sizeHeaderTooBig resp = false)
    (hvc : validateContentType resp.contentType = true) :
    downloadFileFetch useProxy true tp resp freshResp =
      ([initialHeaders useProxy],
       (bodyTail true tp resp.contentType resp.body).1,
       (bodyTail true tp resp.contentType resp.body).2) := by
  unfold downloadFileFetch
  rw [if_neg (by decide), if_neg (by simp [hfn]),
    if_neg (show ¬(respOk resp = false ∧ resp.status ≠ 304) from by
      simp [hok]),
    if_neg (by simp [hsz]), if_neg (by simp [hvc]), if_neg h304]

theorem downloadFileDirect_status_fail (tp : String) (resp : HttpResponse)
    (hfn : validateFilename (lastSegment tp) = true)
    (hst : resp.status ≠ 200) :
    downloadFileDirect true tp resp =
      ([], .failure (.httpError resp.status)) := by
  unfold downloadFileDirect
  rw [if_neg (by decide), if_neg (by simp [hfn]), if_pos hst]

theorem downloadFileDirect_no_httpError (urlValid : Bool) (tp : String)
    (resp : HttpResponse) (s : Nat) (hst : resp.status = 200) :
    (downloadFileDirect urlValid tp resp).2 ≠ .failure (.httpError s) := by
  unfold downloadFileDirect
  split_ifs <;>
    solve
    | simp
    | simp_all
    | exact bodyTail_no_httpError true tp (jsOrNull resp.contentType)
        resp.body s

theorem downloadFileDirect_szfail (tp : String) (resp : HttpResponse)
    (hfn : validateFilename (lastSegment tp) = true)
    (hst : resp.status = 200) (hsz : sizeHeaderTooBig resp = true) :
    downloadFileDirect true tp resp = ([], .failure .oversizedPayload) := by
  unfold downloadFileDirect
  rw [if_neg (by decide), if_neg (by simp [hfn]), if_neg (by simp [hst]),
    if_pos hsz]

theorem downloadFileDirect_to_tail (tp : String) (resp : HttpResponse)
    (hfn : validateFilename (lastSegment tp) = true)
    (hst : resp.status = 200) (hsz : sizeHeaderTooBig resp = false)
    (hvc : validateContentType (jsOrNull resp.contentType) = true) :
    downloadFileDirect true tp resp =
      bodyTail true tp (jsOrNull resp.contentType) resp.body := by
  unfold downloadFileDirect
  rw [if_neg (by decide), if_neg (by simp [hfn]), if_neg (by simp [hst]),
    if_neg (by simp [hsz]), if_neg (by simp [hvc])]

theorem downloadFileDirect_write_le (urlValid : Bool) (tp : String)
    (resp : HttpResponse) (p : String) (b : List Nat)
    (hmem : VaultOp.createBinary p b ∈ (downloadFileDirect urlValid tp resp).1) :
    b.length ≤ MAX_FILE_SIZE := by
  unfold downloadFileDirect at hmem
  split_ifs at hmem <;>
    solve
    | exact absurd hmem (by simp)
    | exact bodyTail_write_le true tp (jsOrNull resp.contentType)
        resp.body p b hmem

theorem sizeHeaderTooBig_some (r : HttpResponse) (s : String)
    (h : r.contentLength = some s) :
    sizeHeaderTooBig r =
      (if s = "" then false
       else
         match jsParseInt s with
         | some n => decide (n > (MAX_FILE_SIZE : Int))
         | none => false) := by
  unfold sizeHeaderTooBig
  rw [h]

/-- C1 counterexample: in the main.ts (`requestUrl`) variant of the
pipeline — one of the two variants the claim covers — a 201 (2xx) response
fails the status check, and a 304 first response is an immediate terminal
`HttpError` failure. -/
theorem claim_c1_counterexample :
    downloadFileDirect true "docs/report" resp201 =
      ([], .failure (.httpError 201)) ∧
    downloadFileDirect true "docs/report" resp304 =
      ([], .failure (.httpError 304)) := by
  decide

/-- C1 (amended): in the fetch-based variant (part_000) a first response
whose status is outside 2xx and is not 304 is a terminal `HttpError`
failure carrying that status, a 2xx first response never produces an
`HttpError` failure, and a 304 first response is not an immediate
`HttpError` failure; in the `requestUrl` variant (main.ts) every status
other than exactly 200 — including other 2xx statuses and 304 — is an
immediate `HttpError` failure carrying that status. -/
theorem claim_c1 (useProxy urlValid : Bool) (tp : String)
    (resp freshResp : HttpResponse)
    (hurl : urlValid = true)
    (hfn : validateFilename (lastSegment tp) = true) :
    (¬(200 ≤ resp.status ∧ resp.status ≤ 299) → resp.status ≠ 304 →
      (downloadFileFetch useProxy urlValid tp resp freshResp).2.2 =
        .failure (.httpError resp.status)) ∧
    (200 ≤ resp.status ∧ resp.status ≤ 299 →
      ∀ s, (downloadFileFetch useProxy urlValid tp resp freshResp).2.2 ≠
        .failure (.httpError s)) ∧
    (resp.status = 304 →
      ∀ s, (downloadFileFetch useProxy urlValid tp resp freshResp).2.2 ≠
        .failure (.httpError s)) ∧
    (resp.status ≠ 200 →
      (downloadFileDirect urlValid tp resp).2 =
        .failure (.httpError resp.status)) ∧
    (resp.status = 200 →
      ∀ s, (downloadFileDirect urlValid tp resp).2 ≠
        .failure (.httpError s)) := by
  subst hurl
  refine ⟨?_, ?_, ?_, ?_, ?_⟩
  · intro h1 h2
    have hok : respOk resp = false :=
      Bool.eq_false_iff.mpr fun ht => h1 ((respOk_iff resp).mp ht)
    rw [downloadFileFetch_status_fail useProxy tp resp freshResp hfn hok h2]
  · intro h2xx s
    have hok : respOk resp = true := (respOk_iff resp).mpr h2xx
    exact downloadFileFetch_no_httpError useProxy true tp resp freshResp s
      fun hc => by rw [hok] at hc; exact Bool.noConfusion hc.1
  · intro h304 s
    exact downloadFileFetch_no_httpError useProxy true tp resp freshResp s
      fun hc => hc.2 h304
  · intro hst
    rw [downloadFileDirect_status_fail tp resp hfn hst]
  · intro hst s
    exact downloadFileDirect_no_httpError true tp resp s hst

/-- C1 witness: a 404 is a terminal `HttpError 404` in both variants. -/
theorem claim_c1_witness :
    (downloadFileFetch true true "docs/report" resp404 respPdf).2.2 =
      .failure (.httpError 404) ∧
    (downloadFileDirect true "docs/report" resp404).2 =
      .failure (.httpError 404) :=
  ⟨(claim_c1 true true "docs/report" resp404 respPdf rfl (by decide)).1
      (by decide) (by decide),
   (claim_c1 true true "docs/report" resp404 respPdf rfl (by decide)).2.2.2.1
      (by decide)⟩

/-- C2 counterexample: a 304 first response followed by a 2xx retry with a
non-empty ten-byte body of a disallowed content type is a terminal
failure, not a success using the retried body. -/
theorem claim_c2_counterexample :
    (downloadFileFetch true true "docs/report" resp304 respMsDownload).2.2 =
      .failure .disallowedContentType := by
  decide

/-- C2 (amended): when the first response is 304 (and passes the header
size and allowlist gates), the orchestrator issues exactly one retry with
the hardened anti-cache headers — the request trace is the initial request
followed by the hardened one, and no run ever issues more than two
requests; a non-2xx retry status is a terminal retry-HTTP-error failure;
and a 2xx retry whose non-empty body passes the size gates and the
content-type allowlist succeeds using the retried body. -/
theorem claim_c2 (useProxy : Bool) (tp : String) (resp freshResp : HttpResponse)
    (hfn : validateFilename (lastSegment tp) = true)
    (h304 : resp.status = 304)
    (hsz : sizeHeaderTooBig resp = false)
    (hvc : validateContentType resp.contentType = true) :
    ((downloadFileFetch useProxy true tp resp freshResp).1 =
      [initialHeaders useProxy, retryHeaders useProxy]) ∧
    (∀ (u v : Bool) (tp2 : String) (r f : HttpResponse),
      (downloadFileFetch u v tp2 r f).1.length ≤ 2) ∧
    (respOk freshResp = false →
      (downloadFileFetch useProxy true tp resp freshResp).2.2 =
        .failure (.httpErrorRetry freshResp.status)) ∧
    (200 ≤ freshResp.status ∧ freshResp.status ≤ 299 →
      freshResp.body ≠ [] →
      sizeHeaderTooBig freshResp = false →
      validateContentType freshResp.contentType = true →
      freshResp.body.length ≤ MAX_FILE_SIZE →
      (downloadFileFetch useProxy true tp resp freshResp).2.2 =
        .success (ensureFileExtension tp freshResp.contentType) ∧
      (downloadFileFetch useProxy true tp resp freshResp).2.1 =
        writeOps (ensureFileExtension tp freshResp.contentType)
          freshResp.body) := by
  have hretry := downloadFileFetch_to_retry useProxy tp resp freshResp hfn
    h304 hsz hvc
  refine ⟨?_, ?_, ?_, ?_⟩
  · rw [hretry]
  · exact downloadFileFetch_reqs_le_two
  · intro hbad
    rw [hretry]
    show (fetch304Retry tp freshResp).2 = _
    unfold fetch304Retry
    rw [if_pos hbad]
  · intro h2xx hbody hszF hvcF hle
    have hfok : respOk freshResp = true := (respOk_iff freshResp).mpr h2xx
    have hred : fetch304Retry tp freshResp =
        bodyTail false tp freshResp.contentType freshResp.body := by
      unfold fetch304Retry
      rw [if_neg (by simp [hfok]), if_neg (by simp [hszF]),
        if_neg (by simp [hvcF])]
    have hbt := bodyTail_ok false tp freshResp.contentType freshResp.body
      (by simp) hbody hle
    rw [hretry, hred, hbt]
    exact ⟨rfl, rfl⟩

/-- C2 witness: 304 then a clean 200 PDF retry — one hardened retry, then
success writing the retried body. -/
theorem claim_c2_witness :
    (downloadFileFetch true true "docs/report" resp304 respPdf).1 =
      [initialHeaders true, retryHeaders true] ∧
    (downloadFileFetch true true "docs/report" resp304 respPdf).2.2 =
      .success (ensureFileExtension "docs/report" respPdf.contentType) :=
  ⟨(claim_c2 true "docs/report" resp304 respPdf (by decide) rfl rfl rfl).1,
   ((claim_c2 true "docs/report" resp304 respPdf (by decide) rfl rfl
      rfl).2.2.2 (by decide) (by decide) rfl rfl (by decide)).1⟩

/-- The Content-Type allowlist accepts every string containing
`text/html` (via its `text/` member), such a string is non-empty, and the
HTML-redirect test fires on it. -/
theorem contentType_html_facts (ct : String)
    (hhtml : jsIncludes ct "text/html" = true) :
    validateContentType (some ct) = true ∧ ct ≠ "" ∧
      ctIncludesHtml (some ct) = true := by
  have hnil : ct.data ≠ [] :=
    ne_empty_of_isInfixCh_cons 't' "ext/html".data ct.data hhtml
  have hne : ct ≠ "" := fun he => hnil (by rw [he])
  have hlow : isInfixCh "text/html".data (ct.data.map toLowerChar) = true :=
    isInfixCh_map_toLower _ _ (by decide) hhtml
  have hsub : isInfixCh "text/".data (ct.data.map toLowerChar) = true := by
    apply isInfixCh_of_append "text/".data "html".data
    rw [show "text/".data ++ "html".data = "text/html".data from by decide]
    exact hlow
  refine ⟨?_, hne, ?_⟩
  · have hred : validateContentType (some ct) =
        (if ct = "" then true
         else ALLOWED_CONTENT_TYPES.any fun allowed =>
           jsIncludes (lowerStr ct) allowed) := rfl
    rw [hred, if_neg hne]
    apply List.any_eq_true.mpr
    exact ⟨"text/", by decide, hsub⟩
  · have hred : ctIncludesHtml (some ct) =
        (if ct = "" then false else jsIncludes ct "text/html") := rfl
    rw [hred, if_neg hne]
    exact hhtml

/-- C3 counterexample: a 304 first response followed by a 2xx `text/html`
retry is not an HTML-redirect failure — the retried HTML body is written
to the vault and the run succeeds. -/
theorem claim_c3_counterexample :
    (downloadFileFetch true true "docs/report" resp304 respHtml).2.2 =
      .success "docs/report" ∧
    VaultOp.createBinary "docs/report" [7, 7] ∈
      (downloadFileFetch true true "docs/report" resp304 respHtml).2.1 := by
  decide

/-- C3 (amended): on the first-response path of either variant, a
successful response whose declared content type contains `text/html` is
the distinguished HTML-redirect failure with no vault mutation; the body
obtained from the one-shot 304 retry, however, is not subject to this
check (see the counterexample). -/
theorem claim_c3 (useProxy : Bool) (tp : String) (resp freshResp : HttpResponse)
    (ct : String)
    (hfn : validateFilename (lastSegment tp) = true)
    (hct : resp.contentType = some ct)
    (hhtml : jsIncludes ct "text/html" = true)
    (hsz : sizeHeaderTooBig resp = false) :
    (200 ≤ resp.status ∧ resp.status ≤ 299 →
      downloadFileFetch useProxy true tp resp freshResp =
        ([initialHeaders useProxy], [], .failure .htmlRedirectSuspected)) ∧
    (resp.status = 200 →
      downloadFileDirect true tp resp =
        ([], .failure .htmlRedirectSuspected)) := by
  obtain ⟨hvc, hne, hfire⟩ := contentType_html_facts ct hhtml
  constructor
  · intro h2xx
    have hok : respOk resp = true := (respOk_iff resp).mpr h2xx
    have h304 : resp.status ≠ 304 := by omega
    rw [downloadFileFetch_to_main useProxy tp resp freshResp hfn hok h304 hsz
      (by rw [hct]; exact hvc)]
    rw [show bodyTail true tp resp.contentType resp.body =
      ([], .failure .htmlRedirectSuspected) from by
        rw [hct]; exact bodyTail_html tp (some ct) resp.body hfire]
  · intro hst
    have hOr : jsOrNull (some ct) = some ct := by
      rw [show jsOrNull (some ct) =
        (if ct = "" then none else some ct) from rfl, if_neg hne]
    rw [downloadFileDirect_to_tail tp resp hfn hst hsz
      (by rw [hct, hOr]; exact hvc)]
    rw [hct, hOr]
    exact bodyTail_html tp (some ct) resp.body hfire

/-- C3 witness: a direct 200 `text/html` response fails with the
HTML-redirect message and performs no vault mutation, in both variants. -/
theorem claim_c3_witness :
    downloadFileFetch true true "docs/report" respHtml respPdf =
      ([initialHeaders true], [], .failure .htmlRedirectSuspected) ∧
    downloadFileDirect true "docs/report" respHtml =
      ([], .failure .htmlRedirectSuspected) :=
  ⟨(claim_c3 true "docs/report" respHtml respPdf "text/html" (by decide) rfl
      (by decide) rfl).1 (by decide),
   (claim_c3 true "docs/report" respHtml respPdf "text/html" (by decide) rfl
      (by decide) rfl).2 rfl⟩

/-- C4: neither variant leaves a partial artifact — every failing run
performs no vault mutation, and a success at `finalPath` performs exactly
the write tail: the containing folder is ensured when the path has one,
then the full downloaded byte buffer is written at `finalPath`. -/
theorem claim_c4 (useProxy urlValid : Bool) (tp : String)
    (resp freshResp : HttpResponse) :
    (∀ e, (downloadFileDirect urlValid tp resp).2 = .failure e →
      (downloadFileDirect urlValid tp resp).1 = []) ∧
    (∀ p, (downloadFileDirect urlValid tp resp).2 = .success p →
      (downloadFileDirect urlValid tp resp).1 = writeOps p resp.body) ∧
    (∀ e, (downloadFileFetch useProxy urlValid tp resp freshResp).2.2 =
        .failure e →
      (downloadFileFetch useProxy urlValid tp resp freshResp).2.1 = []) ∧
    (∀ p, (downloadFileFetch useProxy urlValid tp resp freshResp).2.2 =
        .success p →
      ∃ b, (b = resp.body ∨ b = freshResp.body) ∧
        (downloadFileFetch useProxy urlValid tp resp freshResp).2.1 =
          writeOps p b) :=
  ⟨direct_failure_no_ops urlValid tp resp,
   direct_success_ops urlValid tp resp,
   fetch_failure_no_ops useProxy urlValid tp resp freshResp,
   fetch_success_ops useProxy urlValid tp resp freshResp⟩

/-- C4 witness: a clean 200 PDF download writes the folder then the file;
a 404 writes nothing. -/
theorem claim_c4_witness :
    (downloadFileDirect true "docs/report" respPdf).1 =
      writeOps "docs/report.pdf" respPdf.body ∧
    (downloadFileDirect true "docs/report" resp404).1 = [] :=
  ⟨(claim_c4 true true "docs/report" respPdf respPdf).2.1 "docs/report.pdf"
      (by decide),
   (claim_c4 true true "docs/report" resp404 resp404).1
      (.httpError 404) (by decide)⟩

/-- C5: a declared `content-length` parsing above the 20 MiB ceiling is an
oversized-payload failure with no vault mutation whatever the body is (the
body is never consulted); a downloaded body whose actual byte length
exceeds 20 MiB is an oversized-payload failure with no vault mutation
regardless of the declared header (absent, empty, non-numeric, lying or
truthful — a truthful header only fails earlier with the same error), once
the run passes the content-type gates; and no byte buffer longer than
20 MiB is ever written by the direct pipeline. -/
theorem claim_c5 (tp : String) (resp : HttpResponse)
    (hfn : validateFilename (lastSegment tp) = true)
    (hst : resp.status = 200) :
    (∀ (s : String) (n : Int), resp.contentLength = some s → s ≠ "" →
      jsParseInt s = some n → n > (MAX_FILE_SIZE : Int) →
      ∀ body, downloadFileDirect true tp { resp with body := body } =
        ([], .failure .oversizedPayload)) ∧
    (validateContentType (jsOrNull resp.contentType) = true →
      ctIncludesHtml (jsOrNull resp.contentType) = false →
      ∀ body, body.length > MAX_FILE_SIZE →
        downloadFileDirect true tp { resp with body := body } =
          ([], .failure .oversizedPayload)) ∧
    (∀ (urlValid : Bool) (tp2 : String) (r : HttpResponse) (p : String)
        (b : List Nat),
      VaultOp.createBinary p b ∈ (downloadFileDirect urlValid tp2 r).1 →
      b.length ≤ MAX_FILE_SIZE) := by
  refine ⟨?_, ?_, ?_⟩
  · intro s n hcl hs hparse hn body
    have hsz : sizeHeaderTooBig { resp with body := body } = true := by
      rw [sizeHeaderTooBig_some _ s (by rw [show ({ resp with body := body } :
            HttpResponse).contentLength = resp.contentLength from rfl, hcl]),
        if_neg hs, hparse]
      exact decide_eq_true hn
    exact downloadFileDirect_szfail tp { resp with body := body } hfn hst hsz
  · intro hvc hhtml body hbig
    by_cases hsz : sizeHeaderTooBig { resp with body := body } = true
    · exact downloadFileDirect_szfail tp { resp with body := body } hfn hst
        hsz
    · have hszF : sizeHeaderTooBig { resp with body := body } = false :=
        Bool.eq_false_iff.mpr hsz
      rw [downloadFileDirect_to_tail tp { resp with body := body } hfn hst
        hszF hvc]
      exact bodyTail_oversized true tp (jsOrNull resp.contentType) body
        (fun hc => by rw [hhtml] at hc; exact Bool.noConfusion hc.2) hbig
  · intro urlValid tp2 r p b hmem
    exact downloadFileDirect_write_le urlValid tp2 r p b hmem

/-- C5 witness: a declared 30 MiB `content-length` fails before the body
matters, and a 20 MiB + 1 byte PDF body with no declared length fails the
actual-size re-check. -/
theorem claim_c5_witness :
    downloadFileDirect true "docs/report" respBigHeader =
      ([], .failure .oversizedPayload) ∧
    downloadFileDirect true "docs/report"
      { respPdf with body := List.replicate (MAX_FILE_SIZE + 1) 0 } =
      ([], .failure .oversizedPayload) :=
  ⟨(claim_c5 "docs/report" respBigHeader (by decide) rfl).1 "31457280"
      31457280 rfl (by decide) (by decide) (by decide) [1],
   (claim_c5 "docs/report" respPdf (by decide) rfl).2.1 (by decide)
      (by decide) (List.replicate (MAX_FILE_SIZE + 1) 0)
      (by rw [List.length_replicate]; omega)⟩

end RemoteFetch
